import Mathlib

/-!
Verification of the `nlmunicipality` name-resolution engine
(`src/nlmunicipality/guess.py`).

The development is a shallow embedding of the engine's pure core:

* Python strings are Lean `String`s, Python `None`-able values are `Option`s,
  Python exceptions are an explicit `PErr` error type threaded with `Except`.
* `pandas` tables are lists of records; the columns actually consumed by the
  engine become record fields.
* Python floats that the engine manipulates (merger ratios) are modelled as
  exact unnormalized fractions `PyQ` (numerator and denominator in `ℕ`,
  compared by cross-multiplication); every concrete value analysed here is
  exactly representable in binary floating point, so the boundary behaviour
  agrees with the float arithmetic of the source.
* The external fuzzy scorer (`fuzzywuzzy.fuzz.token_sort_ratio`) is not part
  of this repository; it is abstracted as a `String → String → Nat` parameter
  of the engine state, and `process.extractOne` is embedded over it.
* The two unbounded `while` loops of the historical-chain resolver (`follow`,
  `follow_wiki`) are embedded with an explicit fuel parameter; termination
  claims are phrased as stabilisation of the fuelled function.
-/

namespace NlMunicipality

/-- Python exceptions that the embedded code can raise. -/
inductive PErr
  | typeError
  | attributeError
  | indexError
  | nameError
  | valueError
  | keyError
deriving DecidableEq, Repr

/-- Python values that can be passed as `location_name` to `guess`.
`pfloat` carries an exact rational; `plist` stands for any unhashable
value (its payload is irrelevant to the engine). -/
inductive PyVal
  | pstr (s : String)
  | pint (n : Int)
  | pfloat (q : ℚ)
  | pnone
  | plist (l : List Int)
deriving DecidableEq, Repr

/-- Python hashability: lists are unhashable, the rest of `PyVal` is hashable. -/
def PyVal.hashable : PyVal → Bool
  | .plist _ => false
  | _ => true

/-- Python `==` on the modelled values: an integer-valued float compares
equal to the corresponding int (`363 == 363.0` in Python). -/
def pyEq : PyVal → PyVal → Bool
  | .pstr a, .pstr b => a == b
  | .pint a, .pint b => a == b
  | .pfloat a, .pfloat b => a == b
  | .pint a, .pfloat b => b.den == 1 && b.num == a
  | .pfloat a, .pint b => a.den == 1 && a.num == b
  | .pnone, .pnone => true
  | .plist a, .plist b => a == b
  | _, _ => false

/-- Python truthiness of an optional string (`None` and `''` are falsy). -/
def truthyS : Option String → Bool
  | none => false
  | some s => !s.isEmpty

/-- `t` occurs as a contiguous run at some position of `s`. -/
def infixAt (t : List Char) : List Char → Bool
  | [] => t.isPrefixOf []
  | c :: rest => t.isPrefixOf (c :: rest) || infixAt t rest

/-- Python substring containment `t in s`. -/
def containsSub (s t : String) : Bool := infixAt t.data s.data

/-- Code-point lexicographic `<` on character lists.  (The core `String`
order is implemented on byte iterators and does not reduce in the kernel,
so the order is re-implemented structurally; it agrees with Python's.) -/
def lexLtB : List Char → List Char → Bool
  | [], [] => false
  | [], _ :: _ => true
  | _ :: _, [] => false
  | a :: s, b :: t => if a < b then true else if b < a then false else lexLtB s t

/-- Python string `<=` (code-point lexicographic). -/
def strLeB (a b : String) : Bool := !lexLtB b.data a.data

/-- Python `str.lower` (the engine's data is ASCII where casing matters). -/
def pyLower (s : String) : String := ⟨s.data.map Char.toLower⟩

/-- Python `str.strip()`. -/
def pyStrip (s : String) : String :=
  ⟨((s.data.dropWhile Char.isWhitespace).reverse.dropWhile Char.isWhitespace).reverse⟩

/-- Python `str.startswith`. -/
def pyStartsWith (s t : String) : Bool := t.data.isPrefixOf s.data

/-- Python `str.endswith`. -/
def pyEndsWith (s t : String) : Bool := t.data.isSuffixOf s.data

/-- Python slicing `s[n:]` (by characters). -/
def pyDrop (s : String) (n : Nat) : String := ⟨s.data.drop n⟩

/-- Python slicing `s[:n]` (by characters). -/
def pyTake (s : String) (n : Nat) : String := ⟨s.data.take n⟩

/-- One fuel-counted step of `str.replace` (left-to-right, non-overlapping).
The fuel starts at the string length and at least one character is consumed
per step, so it never runs out. -/
def replaceAux (pat rep : List Char) : Nat → List Char → List Char
  | _, [] => []
  | 0, l => l
  | f + 1, c :: t =>
    if !pat.isEmpty && pat.isPrefixOf (c :: t) then
      rep ++ replaceAux pat rep f ((c :: t).drop pat.length)
    else c :: replaceAux pat rep f t

/-- Python `str.replace` (the engine never replaces an empty pattern). -/
def pyReplace (s pat rep : String) : String :=
  ⟨replaceAux pat.data rep.data s.data.length s.data⟩

/-- Python `str.split(sep)` for a single-character separator. -/
def splitChar (sep : Char) : List Char → List (List Char)
  | [] => [[]]
  | c :: t =>
    let r := splitChar sep t
    if c = sep then [] :: r
    else
      match r with
      | [] => [[c]]
      | h :: tl => (c :: h) :: tl

def pySplitChar (s : String) (sep : Char) : List String :=
  (splitChar sep s.data).map fun cs => ⟨cs⟩

/-- Python `str.isnumeric` restricted to ASCII digits (all the data the
engine feeds it is ASCII). -/
def isNumericStr (s : String) : Bool := !s.isEmpty && s.data.all Char.isDigit

/-- `int(s)` on an all-digit string. -/
def digitsToNat (cs : List Char) : Nat :=
  cs.foldl (fun acc c => acc * 10 + (c.toNat - 48)) 0

/-- `int(s)` guarded: `some` iff `s` is a nonempty digit string
(`int(\'\')` and `int` of a NaN raise in Python). -/
def pyToNat (s : String) : Option Nat :=
  if isNumericStr s then some (digitsToNat s.data) else none

/-- An exact non-negative fraction, kept unnormalized (the engine's
population ratios; Python computes these in floating point, and every value
the proofs touch is exactly representable, so exact fractions agree).
Denominators are positive everywhere the engine computes (a zero total
population would be a division error in the source and is not modelled). -/
structure PyQ where
  num : Nat
  den : Nat
deriving DecidableEq, Repr

/-- `a * b` on fractions. -/
def pyQMul (a b : PyQ) : PyQ := ⟨a.num * b.num, a.den * b.den⟩

/-- `a / b` on fractions. -/
def pyQDiv (a b : PyQ) : PyQ := ⟨a.num * b.den, a.den * b.num⟩

/-- `a > b` by cross-multiplication (valid for positive denominators). -/
def pyQGt (a b : PyQ) : Bool := b.num * a.den < a.num * b.den

/-- `a == b` by cross-multiplication (valid for positive denominators). -/
def pyQEq (a b : PyQ) : Bool := a.num * b.den == b.num * a.den

/-- First `some` produced by `f` over a list, mirroring `re.findall(...)[0]`
style "first match wins" scans. -/
def firstSome (f : α → Option β) : List α → Option β
  | [] => none
  | x :: t =>
    match f x with
    | some r => some r
    | none => firstSome f t

/-- Try a matcher at every suffix, leftmost match wins (regex scan order). -/
def scanFrom (p : List Char → Option α) : List Char → Option α
  | [] => p []
  | c :: t =>
    match p (c :: t) with
    | some r => some r
    | none => scanFrom p t

def isDigits (cs : List Char) : Bool := cs.all Char.isDigit

/-- Match `marker` followed by `dd-mm-yyyy` at the head of the character
list; returns `(dd, mm, yyyy)`.  Embeds the date part of the regexes
`CREATED`, `ENDED`, `RENAMED` in `guess.py`. -/
def matchDateAt (marker : List Char) (l : List Char) : Option (String × String × String) :=
  if marker.isPrefixOf l then
    match l.drop marker.length with
    | d1 :: d2 :: '-' :: m1 :: m2 :: '-' :: y1 :: y2 :: y3 :: y4 :: _ =>
      if isDigits [d1, d2, m1, m2, y1, y2, y3, y4] then
        some (⟨[d1, d2]⟩, ⟨[m1, m2]⟩, ⟨[y1, y2, y3, y4]⟩)
      else none
    | _ => none
  else none

def scanDateLine (marker : List Char) (l : String) : Option (String × String × String) :=
  scanFrom (matchDateAt marker) l.data

/-- `re.findall(pattern, text)[0]` over the whole multi-line text (the date
patterns cannot span a newline, so scanning per line is equivalent). -/
def findDateText (marker : List Char) (lines : List String) : Option (String × String × String) :=
  firstSome (scanDateLine marker) lines

/-- `Ontstaan per ` (regex `CREATED`). -/
def createdMarker : List Char := "Ontstaan per ".data
/-- `Opgeheven per ` (regex `ENDED`). -/
def endedMarker : List Char := "Opgeheven per ".data
/-- `Naamswijziging per ` (regex `RENAMED`). -/
def renamedMarker : List Char := "Naamswijziging per ".data

/-- Match `GM` followed by four digits at the head (regex `GM_CODE`). -/
def matchGmAt : List Char → Option String
  | 'G' :: 'M' :: a :: b :: c :: d :: _ =>
    if isDigits [a, b, c, d] then some ⟨['G', 'M', a, b, c, d]⟩ else none
  | _ => none

/-- First `GM[0-9]{4}` occurrence in a line, `re.findall(GM_CODE, line)[0]`. -/
def scanGm (cs : List Char) : Option String := scanFrom matchGmAt cs

/-- Match `' ([0-9]*) inwoner'` at the head (regex `POP`): a space, a digit
run (the capture), then the literal ` inwoner`. -/
def matchPopAt : List Char → Option String
  | ' ' :: rest =>
    let ds := rest.takeWhile Char.isDigit
    if (" inwoner".data).isPrefixOf (rest.drop ds.length) then some ⟨ds⟩ else none
  | _ => none

/-- First population figure in a line, `re.findall(POP, line)[0]`. -/
def scanPop (cs : List Char) : Option String := scanFrom matchPopAt cs

/-! ## Historical tables and `filter_history` / `lookup_history` -/

/-- One row of a parsed historical table.  The encyclopedia (wiki) table and
the official-register (CBS) table are both lists of `HRec`; the fields map to
the columns the engine reads:

* `name_cleaned`  — the lower-cased cleaned former-municipality name;
* `province`, `since`, `until` — province and validity window (`None` = NaN);
* `variants`      — the `variants` column (wiki only; `[]` elsewhere);
* `opgegaan`      — the raw `Opgegaan in` successor (wiki only);
* `target`        — `latest_gm_name` (wiki) resp. `current_gm_name` (CBS);
* `adamse`        — the `A'damse code[1]` column (wiki only);
* `gemeentecode`  — the `Gemeentecode` column (CBS only; `""` elsewhere). -/
structure HRec where
  name_cleaned : String
  province : Option String
  since : Option String
  until' : Option String
  variants : List String
  opgegaan : Option String
  target : Option String
  adamse : Option Int
  gemeentecode : String
deriving DecidableEq, Repr

/-- `fuzzywuzzy.process.extractOne`: best-scoring candidate, first maximal
candidate wins ties; `none` on an empty candidate list (the Python library
returns `None` there, which the callers then fail to unpack). -/
def extractOne (scorer : String → String → Nat) (q : String) (cands : List String) :
    Option (String × Nat) :=
  cands.foldl
    (fun best c =>
      match best with
      | none => some (c, scorer q c)
      | some (b, sb) => if scorer q c > sb then some (c, scorer q c) else some (b, sb))
    none

/-- `GuessMunicipality.filter_history`: restrict a historical table to rows
valid at `date`, in `province` (unknown-province rows pass), and matching
`name` (by Amsterdamse code, by variant, exactly, or fuzzily).
`hasAdamse` says whether the table has the `A'damse code[1]` column
(true for the wiki table only).  Dates are modelled as already-string
(`%Y…` strings); the numeric-date coercion of the source is upstream of
every property proved here. -/
def filter_history (tbl : List HRec) (hasAdamse : Bool) (scorer : String → String → Nat)
    (name : String) (province : Option String) (date : Option String)
    (fuzzy check_variants : Bool) (threshold_fuzzy : Nat) : List HRec :=
  let prov := province.map pyLower
  let subset :=
    if truthyS date then
      let d := date.getD ""
      tbl.filter fun r =>
        strLeB (r.since.getD "00000000") d && strLeB d (r.until'.getD "99999999")
    else tbl
  let subset :=
    if truthyS prov then
      subset.filter fun r => r.province == prov || r.province == none
    else subset
  if isNumericStr name && hasAdamse then
    -- `mask = table["A'damse code[1]"] == int(name); subset = table[mask]`
    -- (note: the source filters the *full* table here, not the subset)
    tbl.filter fun r => r.adamse == some (Int.ofNat ((pyToNat name).getD 0))
  else if check_variants then
    subset.filter fun r => r.variants.contains name
  else if !fuzzy then
    subset.filter fun r => r.name_cleaned == name
  else if !subset.isEmpty then
    match extractOne scorer name (subset.map (·.name_cleaned)) with
    | some (m, score) =>
      if threshold_fuzzy ≤ score then subset.filter fun r => r.name_cleaned == m
      else subset
    | none => subset
  else subset

/-- `drop_duplicates(subset=col)`: keep the first row per key value
(pandas treats the NaN keys as duplicates of each other, hence `Option`). -/
def dedupByAux (f : HRec → Option String) : List HRec → List (Option String) → List HRec
  | [], _ => []
  | r :: t, seen =>
    if seen.contains (f r) then dedupByAux f t seen
    else r :: dedupByAux f t (f r :: seen)

def dedupBy (f : HRec → Option String) (l : List HRec) : List HRec := dedupByAux f l []

/-- Default `REMOVE` list from `guess.py`. -/
def REMOVE : List String :=
  ["the netherlands", "nederland", "netherlands", " holland", "gemeente",
   "europe", "europa"]

/-- The pure state of a `GuessMunicipality` instance: exactly the attributes
that `guess`, `clean`, `lookup_history` and `filter_history` read.  The three
scoped dictionaries `wp`/`gm`/`wb` are association lists
(scope key `"any"`/province → lower-cased name → municipality name), built by
the excluded data-acquisition collaborators (`get_config`).
`delimitersAttr = none` models the fact that `__init__` never assigns
`self.delimiters` (there is no such attribute on a fresh instance).
`scorer` abstracts the external `fuzz.token_sort_ratio`. -/
structure GM where
  ignore : List String
  remove : List String
  replaceTbl : List (String × String)
  threshold_fuzzy : Nat
  wp : List (String × List (String × String))
  gm : List (String × List (String × String))
  wb : List (String × List (String × String))
  wikiTbl : List HRec
  cbsTbl : List HRec
  scorer : String → String → Nat
  delimitersAttr : Option (List String)

/-- Python dict lookup on an association list. -/
def lookupA (l : List (String × String)) (k : String) : Option String :=
  (l.find? fun p => p.1 == k).map (·.2)

/-- `self.wp[key]` etc.: the scope dictionary for `key`.  By construction in
`get_config` the three scoped dicts share the same key set and `key` is
resolved against `self.wp` first, so the `[]` default is never taken on a
state built by the collaborators. -/
def scopeOf (d : List (String × List (String × String))) (k : String) :
    List (String × String) :=
  ((d.find? fun p => p.1 == k).map (·.2)).getD []

/-- The encyclopedia phase of `lookup_history` (lines 613–623): filter the
wiki table (retrying with variants when empty and requested), then
de-duplicate by `latest_gm_name`. -/
def wikiSubset (g : GM) (name : String) (province date : Option String)
    (fuzzy cv : Bool) (thr : Nat) : List HRec :=
  let subset := filter_history g.wikiTbl true g.scorer name province date fuzzy false thr
  let subset :=
    if subset.isEmpty && cv then
      filter_history g.wikiTbl true g.scorer name province date fuzzy true thr
    else subset
  if !subset.isEmpty then dedupBy (·.target) subset else subset

/-- The register phase of `lookup_history` (lines 629–634): filter the CBS
table (never with variants), then de-duplicate by `current_gm_name`. -/
def cbsSubset (g : GM) (name : String) (province date : Option String)
    (fuzzy : Bool) (thr : Nat) : List HRec :=
  let subset := filter_history g.cbsTbl false g.scorer name province date fuzzy false thr
  if !subset.isEmpty then dedupBy (·.target) subset else subset

/-- `GuessMunicipality.lookup_history`.  The wiki chain is queried first;
when it yields exactly one de-duplicated row, that row's `latest_gm_name`
(lower-cased) and `until` date replace the query name and date.  The CBS
chain is then *always* queried; when it yields exactly one de-duplicated row
its `current_gm_name` overwrites the result, otherwise the wiki result (or
`None`) stands.  A unique wiki row whose `latest_gm_name` is NaN raises
`AttributeError` (`None.lower()`). -/
def lookup_history (g : GM) (name : String) (province date : Option String)
    (fuzzy cv : Bool) (thr : Nat) : Except PErr (Option String) :=
  match wikiSubset g name province date fuzzy cv thr with
  | [r] =>
    match r.target with
    | some w =>
      match cbsSubset g (pyLower w) province r.until' fuzzy thr with
      | [r2] => .ok r2.target
      | _ => .ok (some w)
    | none => .error .attributeError
  | _ =>
    match cbsSubset g name province date fuzzy thr with
    | [r2] => .ok r2.target
    | _ => .ok none

/-! ## `parse_explanation` and `follow` (official-register chain) -/

/-- The result quadruple of `parse_explanation`: `start, end, destination,
ratio` (`stop` stands for the Python local `end`, a Lean keyword). -/
structure ParseRes where
  start : Option String
  stop : Option String
  destination : Option String
  ratio : Option PyQ
deriving DecidableEq, Repr

/-- The `'nieuwe naam'` loop of `parse_explanation` (lines 285–293): walk the
lines, picking up a `RENAMED` date while `result_end` is still empty, and on
the first line starting with `nieuwe naam` take its GM code as destination
with ratio 100 (an absent GM code is an uncaught `IndexError`). -/
def nieuweLoop (re0 : Option (String × String × String)) :
    List String → Except PErr (Option (String × String × String) × Option String × Option PyQ)
  | [] => .ok (re0, none, none)
  | l :: t =>
    let re1 := if re0.isSome then re0 else scanDateLine renamedMarker l
    if pyStartsWith (pyLower l) "nieuwe naam" then
      match scanGm l.data with
      | some code => .ok (re1, some code, some ⟨100, 1⟩)
      | none => .error .indexError
    else nieuweLoop re1 t

/-- The destination-collection loop of `parse_explanation` (lines 305–324):
an `ignore` flag opens at a line `Opgeheven…overgegaan naar:` and closes at an
empty or capitalised line; `- …GMxxxx` lines append a destination row, `...`
lines set the population of the last row (a failed population match is caught
and leaves the row unchanged; a `...` line before any `-` line is an
uncaught `NameError` on `i`). -/
def destLoop : List String → Bool → List (String × Option String) →
    Except PErr (List (String × Option String))
  | [], _, acc => .ok acc
  | l0 :: t, ign, acc =>
    let l := if pyStartsWith l0 "\"" then pyDrop l0 1 else l0
    let ign :=
      if pyStartsWith l "Opgeheven" && pyEndsWith l "overgegaan naar:" then false
      else if l == "" || (l.data.headD ' ').isUpper then true
      else ign
    if ign then destLoop t ign acc
    else
      match
        (if pyStartsWith l "-" then
          match scanGm l.data with
          | some code => Except.ok (acc ++ [(code, (none : Option String))])
          | none => Except.error PErr.indexError
        else Except.ok acc) with
      | .error e => .error e
      | .ok acc2 =>
        if pyStartsWith l "..." then
          match acc2.reverse with
          | [] => .error .nameError
          | (c, p) :: tl =>
            destLoop t ign (((c, match scanPop l.data with
              | some v => some v
              | none => p) :: tl).reverse)
        else destLoop t ign acc2

/-- Largest-population destination: pandas `sort_values(ascending=False)`
followed by `.loc[0]`; the first row with maximal population. -/
def maxByPop : List (String × Nat) → String × Nat
  | [] => ("", 0)
  | x :: t => t.foldl (fun b y => if y.2 > b.2 then y else b) x

/-- The multi-destination ratio gate of `parse_explanation` (lines 331–338):
`ratio = 100 * largest_population / total`, and the largest destination is
accepted only when `ratio > threshold_ratio` (strict). -/
def selectMulti (thr : PyQ) (pops : List (String × Nat)) : Option String × Option PyQ :=
  let m := maxByPop pops
  let total := (pops.map (·.2)).sum
  let r : PyQ := ⟨100 * m.2, total⟩
  (if pyQGt r thr then some m.1 else none, some r)

/-- `destinations.population.astype(int)` on one entry: a missing or empty
population raises (pandas `ValueError` on NaN / `int('')`). -/
def popToNat (p : Option String) : Except PErr Nat :=
  match p.bind pyToNat with
  | some n => .ok n
  | none => .error .valueError

/-- Lines 326–338 of `parse_explanation`: a single destination is accepted
with ratio 100; several destinations go through the population ratio gate. -/
def selectDestination (thr : PyQ) (ds : List (String × Option String)) :
    Except PErr (Option String × Option PyQ) :=
  match ds with
  | [] => .ok (none, none)
  | [(c, _)] => .ok (some c, some ⟨100, 1⟩)
  | _ => do
    let pops ← ds.mapM fun cp => do
      let n ← popToNat cp.2
      pure (cp.1, n)
    .ok (selectMulti thr pops)

/-- `GuessMunicipality.parse_explanation` over the lines of a `Toelichting`
free text: extract start date, end date, destination code and ratio.
A dissolution at or after `match_year` yields no destination. -/
def parse_explanation (match_year : String) (thr : PyQ) (lines : List String) :
    Except PErr ParseRes := do
  let result_start := findDateText createdMarker lines
  let start := result_start.map fun dmy => dmy.2.2 ++ dmy.2.1 ++ dmy.1
  let result_end0 := findDateText endedMarker lines
  let hasNN := lines.any fun l => containsSub (pyLower l) "nieuwe naam"
  let (result_end, dest0, ratio0) ←
    if hasNN then nieuweLoop result_end0 lines else .ok (result_end0, none, none)
  match result_end with
  | some dmy =>
    let stop := dmy.2.2 ++ dmy.2.1 ++ dmy.1
    if !match_year.isEmpty && strLeB match_year (pyTake stop 4) then
      .ok { start := start, stop := some stop, destination := none, ratio := none }
    else if !hasNN then do
      let ds ← destLoop lines true []
      if ds.isEmpty then
        .ok { start := start, stop := some stop, destination := dest0, ratio := ratio0 }
      else do
        let (d, r) ← selectDestination thr ds
        .ok { start := start, stop := some stop, destination := d, ratio := r }
    else
      .ok { start := start, stop := some stop, destination := dest0, ratio := ratio0 }
  | none => .ok { start := start, stop := none, destination := dest0, ratio := ratio0 }

/-- A raw row of the CBS `Gemeente` sheet as consumed by `follow`:
its `Gemeentecode` and the lines of its `Toelichting`. -/
structure CbsRaw where
  gemeentecode : String
  toelichting : List String
deriving DecidableEq, Repr

/-- The body of the `for text in …Toelichting` loop inside `follow`
(lines 350–358), on the state `(gm_code, nw_code, ratio)`: parse the text;
on a destination, multiply the cumulative ratio by `nw_ratio / 100` and move
to the destination only while the cumulative ratio still strictly exceeds
the threshold, otherwise abort the chain. -/
def followRow (thr : PyQ) (my : String) (st : Option String × Option String × Option PyQ)
    (row : CbsRaw) : Except PErr (Option String × Option String × Option PyQ) := do
  let pr ← parse_explanation my thr row.toelichting
  match pr.destination with
  | some nw =>
    match st.2.2, pr.ratio with
    | some r0, some nr =>
      let r1 := pyQMul r0 (pyQDiv nr ⟨100, 1⟩)
      if pyQGt r1 thr then .ok (some nw, some nw, some r1)
      else .ok (none, none, some r1)
    | _, _ => .error .typeError
  | none => .ok (st.1, none, st.2.2)

/-- `muni_history_cbs.Gemeentecode == gm_code` row selection. -/
def followRows (tbl : List CbsRaw) : Option String → List CbsRaw
  | some c => tbl.filter fun r => r.gemeentecode == c
  | none => []

/-- Python truthiness of the loop variable `nw_code`. -/
def truthyO (o : Option String) : Bool :=
  match o with
  | none => false
  | some s => !s.isEmpty

/-- The `while nw_code:` loop of `follow`, with explicit fuel; `.ok none`
marks fuel exhaustion (the Python loop still running). -/
def followLoop (thr : PyQ) (my : String) (tbl : List CbsRaw) :
    Nat → Option String × Option String × Option PyQ →
    Except PErr (Option (Option String × Option PyQ))
  | 0, st =>
    if !truthyO st.2.1 then .ok (some (st.1, st.2.2))
    else if (followRows tbl st.1).isEmpty then .ok (some (st.1, st.2.2))
    else .ok none
  | fuel + 1, st =>
    if !truthyO st.2.1 then .ok (some (st.1, st.2.2))
    else
      let rows := followRows tbl st.1
      if rows.isEmpty then .ok (some (st.1, st.2.2))
      else
        match rows.foldlM (followRow thr my) st with
        | .error e => .error e
        | .ok st' => followLoop thr my tbl fuel st'

/-- `GuessMunicipality.follow` (fuelled): start with `nw_code = gm_code`. -/
def follow (thr : PyQ) (my : String) (tbl : List CbsRaw) (fuel : Nat)
    (gm_code : Option String) (ratio : Option PyQ) :
    Except PErr (Option (Option String × Option PyQ)) :=
  followLoop thr my tbl fuel (gm_code, gm_code, ratio)

/-! ## `follow_wiki` (encyclopedia chain) -/

/-- `gm_name.split('(')[0].strip().lower()`. -/
def cleanNameStr (s : String) : String := pyLower (pyStrip ((pySplitChar s '(').headD ""))

/-- `gm_name.replace(' (naamswijziging)', '')`. -/
def stripNaams (s : String) : String := pyReplace s " (naamswijziging)" ""

/-- The row mask inside `follow_wiki`: same cleaned name, a non-NaN
`Opgegaan in`, and — when a `since` bound is active — `until >= since` or an
unknown `until`. -/
def wikiMask (tbl : List HRec) (nc : String) (since : Option String) : List HRec :=
  tbl.filter fun r =>
    r.name_cleaned == nc && r.opgegaan.isSome &&
      (if truthyS since then
        (match r.until' with
         | some u => strLeB (since.getD "") u
         | none => true)
      else true)

/-- The `while True:` loop of `follow_wiki`, with explicit fuel; `none`
marks fuel exhaustion.  The loop breaks when the mask does not select
exactly one row, on a self-referencing successor, or on a falsy `until`. -/
def followWikiLoop (tbl : List HRec) : Nat → String → Option String → Option String
  | 0, gm0, since =>
    let gm1 := stripNaams gm0
    let nc := cleanNameStr gm1
    (match wikiMask tbl nc since with
     | [r] =>
       let nw := r.opgegaan.getD ""
       if cleanNameStr nw == nc then some gm1
       else if !truthyS r.until' then some nw
       else none
     | _ => some gm1)
  | fuel + 1, gm0, since =>
    let gm1 := stripNaams gm0
    let nc := cleanNameStr gm1
    (match wikiMask tbl nc since with
     | [r] =>
       let nw := r.opgegaan.getD ""
       if cleanNameStr nw == nc then some gm1
       else if !truthyS r.until' then some nw
       else followWikiLoop tbl fuel nw r.until'
     | _ => some gm1)

/-- `GuessMunicipality.follow_wiki` (fuelled): `None` input short-circuits;
the inner `Option` of the result is the Python return value, the outer
`Option` is `none` on fuel exhaustion. -/
def follow_wiki (tbl : List HRec) (fuel : Nat) (gm_name : Option String)
    (since : Option String) : Option (Option String) :=
  match gm_name with
  | none => some none
  | some g => (followWikiLoop tbl fuel g since).map some

/-! ## `clean` (normalizer) -/

/-- The `'bergen '` special case at the top of `clean` (lines 539–545):
province-hint substrings short-circuit to the disambiguated form. -/
def bergenCheck (s : String) : Option String :=
  if pyStartsWith s "bergen " then
    if ["n.h.", "(nh", " nh", "noord-holland"].any (fun t => containsSub s t) then
      some "Bergen (NH.)"
    else if ["(l)", "(l.)", " l ", "limburg"].any (fun t => containsSub s t) then
      some "Bergen (L.)"
    else none
  else none

/-- The regex `GRAVEN` = `^['|‘|’]*s[-| ]graven(.*?)$`: optional leading
quote-class characters, `s`, one of `-`/`|`/` `, the literal `graven`, and
the captured remainder. -/
def gravenMatch (s : String) : Option String :=
  let cs := s.data.dropWhile fun c => c = '\'' || c = '‘' || c = '’' || c = '|'
  match cs with
  | 's' :: d :: rest =>
    if (d = '-' || d = '|' || d = ' ') && "graven".data.isPrefixOf rest then
      some ⟨rest.drop 6⟩
    else none
  | _ => none

/-- `GuessMunicipality.clean`: strip, Bergen special case, ignore list
(returns `None`), `a/d` expansion, removal list, `'s-graven…` and `'s `
normalisation, replacement table. -/
def cleanSub (g : GM) (sub0 : String) : Option String :=
  let s := pyStrip sub0
  match bergenCheck s with
  | some b => some b
  | none =>
    if g.ignore.contains s then none
    else
      let s := if containsSub s " a/d " then pyReplace s " a/d " " aan den " else s
      let s := g.remove.foldl (fun acc t => pyReplace acc t "") s
      let s :=
        match gravenMatch s with
        | some rest => "'s-graven" ++ rest
        | none => s
      let s := if pyStartsWith s "'s " then "'s-" ++ pyDrop s 3 else s
      match lookupA g.replaceTbl s with
      | some v => some v
      | none => some s

/-! ## `guess` (resolution orchestrator) -/

/-- The keyword parameters of `guess` plus `location_name`. -/
structure GArgs where
  location_name : PyVal
  clean : Bool
  check_history : Bool
  check_variants : Bool
  check_wp : Bool
  check_wb : Bool
  check_gm_fuzzy : Bool
  check_fuzzy : Bool
  check_history_fuzzy : Bool
  check_wp_fuzzy : Bool
  check_wb_fuzzy : Bool
  province : Option String
  date : Option String
  delimiters : Bool
  return_how : Bool
  threshold_fuzzy : Option Nat
deriving Repr

/-- All-default arguments for `guess(location_name)`. -/
def defaultArgs (v : PyVal) : GArgs :=
  { location_name := v, clean := true, check_history := true, check_variants := true,
    check_wp := true, check_wb := true, check_gm_fuzzy := true, check_fuzzy := true,
    check_history_fuzzy := true, check_wp_fuzzy := true, check_wb_fuzzy := true,
    province := none, date := none, delimiters := false, return_how := false,
    threshold_fuzzy := none }

/-- `if not threshold_fuzzy: threshold_fuzzy = self.threshold_fuzzy`
(lines 706–707): `None` and `0` are both falsy, so both take the default. -/
def effectiveThreshold (t : Option Nat) (dflt : Nat) : Nat :=
  match t with
  | none => dflt
  | some v => if v == 0 then dflt else v

/-- The flag mutations at the top of `guess` (lines 695–707): a disabled
exact tier forces its fuzzy counterpart off; `check_fuzzy = False` forces all
four fuzzy tiers off; a falsy threshold takes the instance default. -/
def effArgs (g : GM) (a : GArgs) : GArgs :=
  let chf := if !a.check_history then false else a.check_history_fuzzy
  let wpf := if !a.check_wp then false else a.check_wp_fuzzy
  let wbf := if !a.check_wb then false else a.check_wb_fuzzy
  let gmf := a.check_gm_fuzzy
  let r :=
    if !a.check_fuzzy then (false, false, false, false) else (gmf, chf, wpf, wbf)
  { a with
    check_gm_fuzzy := r.1, check_history_fuzzy := r.2.1, check_wp_fuzzy := r.2.2.1,
    check_wb_fuzzy := r.2.2.2,
    threshold_fuzzy := some (effectiveThreshold a.threshold_fuzzy g.threshold_fuzzy) }

/-- `params_key` (lines 709–713): every local at that point except
`return_how` and `self` — so the *raw* `location_name`/`province`/`date`,
and the *mutated* flags and threshold. -/
structure PKey where
  location_name : PyVal
  clean : Bool
  check_history : Bool
  check_variants : Bool
  check_wp : Bool
  check_wb : Bool
  check_gm_fuzzy : Bool
  check_fuzzy : Bool
  check_history_fuzzy : Bool
  check_wp_fuzzy : Bool
  check_wb_fuzzy : Bool
  province : Option String
  date : Option String
  delimiters : Bool
  threshold_fuzzy : Option Nat
deriving Repr

def mkPKey (a : GArgs) : PKey :=
  { location_name := a.location_name, clean := a.clean,
    check_history := a.check_history, check_variants := a.check_variants,
    check_wp := a.check_wp, check_wb := a.check_wb,
    check_gm_fuzzy := a.check_gm_fuzzy, check_fuzzy := a.check_fuzzy,
    check_history_fuzzy := a.check_history_fuzzy, check_wp_fuzzy := a.check_wp_fuzzy,
    check_wb_fuzzy := a.check_wb_fuzzy, province := a.province, date := a.date,
    delimiters := a.delimiters, threshold_fuzzy := a.threshold_fuzzy }

/-- Python tuple equality of two cache keys (`pyEq` on the value field). -/
def pkeyBEq (k1 k2 : PKey) : Bool :=
  pyEq k1.location_name k2.location_name && k1.clean == k2.clean &&
  k1.check_history == k2.check_history && k1.check_variants == k2.check_variants &&
  k1.check_wp == k2.check_wp && k1.check_wb == k2.check_wb &&
  k1.check_gm_fuzzy == k2.check_gm_fuzzy && k1.check_fuzzy == k2.check_fuzzy &&
  k1.check_history_fuzzy == k2.check_history_fuzzy &&
  k1.check_wp_fuzzy == k2.check_wp_fuzzy && k1.check_wb_fuzzy == k2.check_wb_fuzzy &&
  k1.province == k2.province && k1.date == k2.date &&
  k1.delimiters == k2.delimiters && k1.threshold_fuzzy == k2.threshold_fuzzy

/-- `self.found_results`: values are `(result, method_prev_tag)` pairs. -/
abbrev Cache := List (PKey × (Option String × String))

def cacheLookup (c : Cache) (k : PKey) : Option (Option String × String) :=
  (c.find? fun e => pkeyBEq e.1 k).map (·.2)

/-- Dict assignment: a later insert shadows an earlier entry. -/
def cacheInsert (c : Cache) (k : PKey) (v : Option String × String) : Cache :=
  (k, v) :: c

/-- Lines 721–731 of `guess`: an integer-valued float becomes its int, an int
becomes its decimal string; anything that is then not a string yields `none`
(the `(None, None)` early return). -/
def coerceName : PyVal → Option String
  | .pstr s => some s
  | .pint n => some (toString n)
  | .pfloat q => if q.den = 1 then some (toString q.num) else none
  | _ => none

/-- Lines 733–742 of `guess`: strip the province, recode `friesland`,
resolve the scope key against `self.wp`, fall back to `"any"` (dropping the
province) when unrecognised. -/
def resolveProvince (g : GM) (province : Option String) : Option String × String :=
  if truthyS province then
    let p := pyStrip (province.getD "")
    let p := if pyLower p = "friesland" then "Fryslân" else p
    let k := pyLower p
    if (g.wp.find? fun e => e.1 == k).isSome then (some p, k) else (none, "any")
  else (none, "any")

/-- Lines 743–748 of `guess`: when `delimiters` is truthy, iterate
`self.delimiters` — an attribute `__init__` never set, hence
`AttributeError` on a fresh instance — replacing each delimiter by `,`
and splitting; otherwise the single-element list. -/
def splitPhase (g : GM) (ln : String) (delimiters : Bool) : Except PErr (List String) :=
  if delimiters then
    match g.delimitersAttr with
    | none => .error .attributeError
    | some ds => .ok (pySplitChar (ds.foldl (fun acc d => pyReplace acc d ",") ln) ',')
  else .ok [ln]

/-- Line 751, `[sub for sub in substrings if len(sub) > 1]`: `len(None)`
(a piece the ignore list turned into `None`) raises `TypeError`; surviving
pieces need length > 1. -/
def filterLen : List (Option String) → Except PErr (List String)
  | [] => .ok []
  | none :: _ => .error .typeError
  | some s :: t =>
    match filterLen t with
    | .error e => .error e
    | .ok r => .ok (if s.length > 1 then s :: r else r)

/-- Lines 743–751: split, optionally clean, drop degenerate pieces. -/
def substringsOf (g : GM) (ln : String) (delimiters cleanF : Bool) :
    Except PErr (List String) :=
  match splitPhase g ln delimiters with
  | .error e => .error e
  | .ok subs =>
    filterLen (if cleanF then subs.map (cleanSub g) else subs.map some)

/-- Outcome of one `guess` computation (one constructor per return site):
`nonString` is the `(None, None)` early return, `special` the uncached
Bergen short-circuit, `hit r tag` a tier hit returned as `(r, tag)` and
cached as `(r, tag ++ "_prev")`, `nomatch` the cached sentinel. -/
inductive GOutcome
  | nonString
  | special (s : String)
  | hit (result : String) (tag : String)
  | noMatch
deriving DecidableEq, Repr

/-- The first loop over substrings (lines 752–762): the Bergen literals
short-circuit, then the exact municipality dictionary of the scope. -/
def loop1 (g : GM) (key : String) : List String → Option (String ⊕ String)
  | [] => none
  | s :: t =>
    if s == "Bergen (NH.)" || s == "Bergen (L.)" then some (Sum.inl s)
    else
      match lookupA (scopeOf g.gm key) s with
      | some r => some (Sum.inr r)
      | none => loop1 g key t

/-- A `for substring in substrings` loop over an exact dictionary tier. -/
def firstDict (d : List (String × String)) : List String → Option String
  | [] => none
  | s :: t =>
    match lookupA d s with
    | some r => some r
    | none => firstDict d t

/-- A `for substring in substrings` loop over a history tier: the first
truthy `lookup_history` result wins. -/
def firstHistory (g : GM) (province date : Option String) (fuzzy cv : Bool)
    (thr : Nat) : List String → Except PErr (Option String)
  | [] => .ok none
  | s :: t =>
    match lookup_history g s province date fuzzy cv thr with
    | .error e => .error e
    | .ok (some v) =>
      if v.isEmpty then firstHistory g province date fuzzy cv thr t else .ok (some v)
    | .ok none => firstHistory g province date fuzzy cv thr t

/-- A `for substring in substrings` loop over a fuzzy dictionary tier:
`process.extractOne` over the scope's keys, accepted at `score >=
threshold`; an empty dictionary makes the tuple unpacking of Python's
`None` raise `TypeError`. -/
def firstFuzzy (scorer : String → String → Nat) (d : List (String × String))
    (thr : Nat) : List String → Except PErr (Option String)
  | [] => .ok none
  | s :: t =>
    match extractOne scorer s (d.map (·.1)) with
    | none => .error .typeError
    | some (m, score) =>
      if thr ≤ score then
        match lookupA d m with
        | some r => .ok (some r)
        | none => .error .keyError
      else firstFuzzy scorer d thr t

/-- Lines 752–836: the tier cascade, in source order — exact municipality
(with the Bergen special case), exact history, exact place, exact
neighbourhood, fuzzy municipality, fuzzy history, fuzzy place, fuzzy
neighbourhood, then the no-match sentinel. -/
def runTiers (g : GM) (key : String) (province date : Option String)
    (check_history cv check_wp check_wb cgf chf cwpf cwbf : Bool) (thr : Nat)
    (subs : List String) : Except PErr GOutcome := do
  match loop1 g key subs with
  | some (Sum.inl b) => return GOutcome.special b
  | some (Sum.inr r) => return GOutcome.hit r "gm"
  | none =>
  if check_history then
    match ← firstHistory g province date false cv thr subs with
    | some r => return GOutcome.hit r "history"
    | none => pure ()
  if check_wp then
    match firstDict (scopeOf g.wp key) subs with
    | some r => return GOutcome.hit r "wp"
    | none => pure ()
  if check_wb then
    match firstDict (scopeOf g.wb key) subs with
    | some r => return GOutcome.hit r "wb"
    | none => pure ()
  if cgf then
    match ← firstFuzzy g.scorer (scopeOf g.gm key) thr subs with
    | some r => return GOutcome.hit r "gm_fuzzy"
    | none => pure ()
  if chf then
    match ← firstHistory g province date true cv thr subs with
    | some r => return GOutcome.hit r "history_fuzzy"
    | none => pure ()
  if cwpf then
    match ← firstFuzzy g.scorer (scopeOf g.wp key) thr subs with
    | some r => return GOutcome.hit r "wp_fuzzy"
    | none => pure ()
  if cwbf then
    match ← firstFuzzy g.scorer (scopeOf g.wb key) thr subs with
    | some r => return GOutcome.hit r "wb_fuzzy"
    | none => pure ()
  return GOutcome.noMatch

/-- One `guess` computation after the cache check (expects the *effective*
arguments): type coercion, lower-casing, scope resolution, splitting and
cleaning, then the tier cascade. -/
def guessCompute (g : GM) (a : GArgs) : Except PErr GOutcome :=
  match coerceName a.location_name with
  | none => .ok GOutcome.nonString
  | some s =>
    let ln := pyLower s
    let pk := resolveProvince g a.province
    match substringsOf g ln a.delimiters a.clean with
    | .error e => .error e
    | .ok subs =>
      runTiers g pk.2 pk.1 a.date a.check_history a.check_variants a.check_wp
        a.check_wb a.check_gm_fuzzy a.check_history_fuzzy a.check_wp_fuzzy
        a.check_wb_fuzzy (a.threshold_fuzzy.getD g.threshold_fuzzy) subs

/-- `GuessMunicipality.guess`, observed as the `(result, how)` pair that
`return_how=True` yields, together with the updated cache.  An unhashable
`location_name` raises `TypeError` at the `params_key in self.found_results`
membership test.  A cache hit returns the stored pair unchanged.  Tier hits
are cached under `tag ++ "_prev"` but returned with the plain `tag`; the
Bergen special case and the non-string early return are *not* cached. -/
def guessPair (g : GM) (cache : Cache) (a : GArgs) :
    Except PErr ((Option String × Option String) × Cache) :=
  let ea := effArgs g a
  let pkey := mkPKey ea
  if !ea.location_name.hashable then .error .typeError
  else
    match cacheLookup cache pkey with
    | some rt => .ok ((rt.1, some rt.2), cache)
    | none =>
      match guessCompute g ea with
      | .error e => .error e
      | .ok .nonString => .ok ((none, none), cache)
      | .ok (.special s) => .ok ((some s, some "special"), cache)
      | .ok (.hit r t) =>
        .ok ((some r, some t), cacheInsert cache pkey (some r, t ++ "_prev"))
      | .ok .noMatch =>
        .ok ((none, some "no_match_found"), cacheInsert cache pkey (none, "no_match_found"))

/-- `GuessMunicipality.__init__`, restricted to the attributes the embedded
operations read.  The reference tables and scoped dictionaries are produced
by the excluded data-acquisition collaborators and passed in ready-made.
Falsy `ignore`/`remove` take the defaults; `self.delimiters` is never
assigned. -/
def initGM (ignore remove : Option (List String)) (replaceTbl : List (String × String))
    (threshold_fuzzy : Nat) (wp gm wb : List (String × List (String × String)))
    (wikiTbl cbsTbl : List HRec) (scorer : String → String → Nat) : GM :=
  { ignore :=
      match ignore with
      | some (x :: t) => x :: t
      | _ => [],
    remove :=
      match remove with
      | some (x :: t) => x :: t
      | _ => REMOVE,
    replaceTbl := replaceTbl, threshold_fuzzy := threshold_fuzzy,
    wp := wp, gm := gm, wb := wb, wikiTbl := wikiTbl, cbsTbl := cbsTbl,
    scorer := scorer, delimitersAttr := none }

/-! ## Well-formedness of historical datasets (for the termination claims)

A historical dataset is well formed when its successor relation is acyclic
— the spec: "no revisits of an already-dissolved code are expected".
Acyclicity is witnessed by a rank function that strictly decreases along
every successor edge. -/

/-- The register dataset respects `rank`: every row whose explanation parses
to a destination has a destination of strictly smaller rank than the row's
own code. -/
def followWF (rank : String → Nat) (thr : PyQ) (my : String) (tbl : List CbsRaw) : Bool :=
  tbl.all fun row =>
    match parse_explanation my thr row.toelichting with
    | .ok pr =>
      match pr.destination with
      | some c => decide (rank c < rank row.gemeentecode)
      | none => true
    | .error _ => true

/-- The encyclopedia dataset respects `rank`: every `Opgegaan in` successor,
after the in-loop cleaning, has strictly smaller rank than the row's
cleaned name. -/
def followWikiWF (rank : String → Nat) (tbl : List HRec) : Bool :=
  tbl.all fun r =>
    match r.opgegaan with
    | some nw => decide (rank (cleanNameStr (stripNaams nw)) < rank r.name_cleaned)
    | none => true

/-! ## Concrete instances used by the witnesses and counterexamples -/

/-- A concrete stand-in for the external fuzzy scorer: 100 on equality. -/
def scorer0 : String → String → Nat := fun a b => if a = b then 100 else 0

/-- A small engine: one municipality `Amsterdam`, one place, one
neighbourhood, empty history. -/
def gEx : GM :=
  initGM none none [] 85
    [("any", [("testplaats", "Testgemeente")])]
    [("any", [("amsterdam", "Amsterdam")])]
    [("any", [("testbuurt", "Testgemeente")])]
    [] [] scorer0

/-- The same engine with `onbekend` on the ignore list. -/
def gIgn : GM :=
  initGM (some ["onbekend"]) none [] 85
    [("any", [("testplaats", "Testgemeente")])]
    [("any", [("amsterdam", "Amsterdam")])]
    [("any", [("testbuurt", "Testgemeente")])]
    [] [] scorer0

/-- Wiki row: former municipality `a`, absorbed into `B`. -/
def rWiki : HRec :=
  { name_cleaned := "a", province := none, since := none, until' := some "20000101",
    variants := [], opgegaan := some "B", target := some "B", adamse := none,
    gemeentecode := "" }

/-- CBS row: former municipality `b` (the register's view of `B`), current
municipality `C`. -/
def rCbs : HRec :=
  { name_cleaned := "b", province := none, since := some "19000101",
    until' := some "20000101", variants := [], opgegaan := none,
    target := some "C", adamse := none, gemeentecode := "GM0003" }

/-- Engine whose wiki chain resolves `a ↦ B` and whose register chain
resolves `b ↦ C`. -/
def g2 : GM :=
  initGM none none [] 85 [("any", [])] [("any", [])] [("any", [])]
    [rWiki] [rCbs] scorer0

/-- An explanation text whose two destinations give a largest-destination
ratio of exactly 80 (the default threshold). -/
def ex80 : List String :=
  ["Opgeheven per 01-01-2000, overgegaan naar:",
   "- Gemeente Alpha (GM0001).",
   "... 80 inwoners naar deze gemeente",
   "- Gemeente Beta (GM0002).",
   "... 20 inwoners naar deze gemeente"]

/-- Register row `GM0001`, dissolved into the single destination `GM0002`. -/
def row1 : CbsRaw :=
  { gemeentecode := "GM0001",
    toelichting := ["Opgeheven per 01-01-2000, overgegaan naar:",
                    "- Gemeente Nieuwdorp (GM0002)."] }

/-- Register row `GM0002`, still current (no dissolution). -/
def row2 : CbsRaw :=
  { gemeentecode := "GM0002", toelichting := ["Ontstaan per 01-01-2000."] }

/-- A second wiki row with no successor, making `b` terminal. -/
def rWiki2 : HRec :=
  { name_cleaned := "b", province := none, since := none, until' := none,
    variants := [], opgegaan := none, target := none, adamse := none,
    gemeentecode := "" }

/-- Rank function for the witness datasets: sends `GM0001` and `a` to 1,
everything else to 0. -/
def rankEx (s : String) : Nat := if s = "GM0001" || s = "a" then 1 else 0

/-- The multi-destination ratio of lines 335–336:
`100 * largest_population / total_population`. -/
def ratioOf (pops : List (String × Nat)) : PyQ :=
  ⟨100 * (maxByPop pops).2, (pops.map (·.2)).sum⟩

/-- The effective cache key of `guess('amsterdam')` on `gEx`. -/
def pkeyAms : PKey := mkPKey (effArgs gEx (defaultArgs (.pstr "amsterdam")))

/-- The cache after `guess('amsterdam')` on `gEx`. -/
def cacheAms : Cache := cacheInsert [] pkeyAms (some "Amsterdam", "gm_prev")

/-! ## Helper lemmas -/

theorem pyEq_refl (v : PyVal) : pyEq v v = true := by
  cases v <;> simp [pyEq]

theorem pkeyBEq_refl (k : PKey) : pkeyBEq k k = true := by
  simp [pkeyBEq, pyEq_refl]

theorem cacheLookup_insert (c : Cache) (k : PKey) (v : Option String × String) :
    cacheLookup (cacheInsert c k v) k = some v := by
  simp [cacheLookup, cacheInsert, List.find?_cons_of_pos, pkeyBEq_refl]

theorem excBind_ok (x : α) (f : α → Except ε β) :
    (Except.ok x >>= f : Except ε β) = f x := rfl

/-! ## C9: a zero threshold override is the default -/

/-- C9: passing `threshold_fuzzy = 0` to `guess` behaves identically to
passing no override at all — the falsy value is replaced by the instance
default before both the cache key and the fuzzy tiers use it. -/
theorem c9_threshold_zero_is_default (g : GM) (cache : Cache) (a : GArgs) :
    guessPair g cache { a with threshold_fuzzy := some 0 } =
    guessPair g cache { a with threshold_fuzzy := none } := rfl

/-! ## C5: ignore-listed inputs crash `guess` -/

/-- C5 (code bug): the ignore list is meant to make `guess` return absent
(`clean` deliberately returns `None` for an ignored value, and the
`__init__` docstring says such values "should be ignored"), but the length
filter `len(sub) > 1` in `guess` is applied to the `None` piece and raises
`TypeError`.  With `ignore = ['onbekend']`, `guess('onbekend')` raises. -/
theorem c5_ignore_value_raises :
    guessPair gIgn [] (defaultArgs (.pstr "onbekend")) = .error .typeError := rfl

/-! ## C6: requesting splitting crashes `guess` -/

/-- C6 (code bug): `guess(..., delimiters=True)` iterates
`self.delimiters`, an attribute `__init__` never assigns (the module-level
`DELIMITERS` constant is unused), so requesting splitting raises
`AttributeError` instead of splitting the input. -/
theorem c6_delimiters_raises :
    guessPair gEx [] { defaultArgs (.pstr "a|b") with delimiters := true } =
    .error .attributeError := rfl

/-! ## C4: caching of outcomes -/

/-- C4 (counterexample): the claim says every `guess` outcome — including
the Bergen special case — is recorded in the cache before returning.  On the
input `bergen nh` the engine returns the special-cased `Bergen (NH.)` with
an *unchanged, still empty* cache: lines 752–756 return without writing
`self.found_results`. -/
theorem c4_counterexample :
    guessPair gEx [] (defaultArgs (.pstr "bergen nh")) =
      .ok ((some "Bergen (NH.)", some "special"), []) := rfl

/-- C4 (amended): every outcome *except* the Bergen special case and the
non-string early return is recorded, before returning, in the cache under
the full effective parameter key, with the returned result as the stored
value's first component. -/
theorem c4_amended (g : GM) (cache : Cache) (a : GArgs)
    (r how : Option String) (c' : Cache)
    (hfresh : cacheLookup cache (mkPKey (effArgs g a)) = none)
    (hrun : guessPair g cache a = .ok ((r, how), c'))
    (hsp : how ≠ some "special") (hns : how ≠ none) :
    (cacheLookup c' (mkPKey (effArgs g a))).map (·.1) = some r := by
  cases hh : (effArgs g a).location_name.hashable with
  | false =>
    simp [guessPair, hh] at hrun
  | true =>
    cases hcomp : guessCompute g (effArgs g a) with
    | error e =>
      simp [guessPair, hh, hfresh, hcomp] at hrun
    | ok oc =>
      cases oc with
      | nonString =>
        simp [guessPair, hh, hfresh, hcomp] at hrun
        exact absurd hrun.1.2.symm hns
      | special s =>
        simp [guessPair, hh, hfresh, hcomp] at hrun
        exact absurd hrun.1.2.symm hsp
      | hit r0 t0 =>
        simp [guessPair, hh, hfresh, hcomp] at hrun
        obtain ⟨⟨hr, _⟩, hc⟩ := hrun
        subst hc
        rw [cacheLookup_insert]
        simp [hr]
      | noMatch =>
        simp [guessPair, hh, hfresh, hcomp] at hrun
        obtain ⟨⟨hr, _⟩, hc⟩ := hrun
        subst hc
        rw [cacheLookup_insert]
        simp [hr]

/-- Witness for `c4_amended` at a concrete exact-municipality hit. -/
theorem c4_amended_witness :
    cacheLookup [] pkeyAms = none
    ∧ (cacheLookup cacheAms pkeyAms).map (·.1) = some (some "Amsterdam") :=
  ⟨rfl, c4_amended gEx [] (defaultArgs (.pstr "amsterdam")) (some "Amsterdam")
    (some "gm") cacheAms rfl rfl (by simp) (by simp)⟩

/-! ## C7: repeat calls and the cache -/

/-- C7 (counterexample): the claim says a second identical call (with
`return_how=True`) returns the identical result, method tag included.  On
`gEx`, the first `guess('amsterdam')` returns the tag `gm`, but the second
is served from the cache, which stores `gm_prev` — the method tags differ
(the municipality name is the same). -/
theorem c7_counterexample :
    (guessPair gEx [] (defaultArgs (.pstr "amsterdam"))).map (fun p => p.1.2) =
      .ok (some "gm")
    ∧ ((guessPair gEx [] (defaultArgs (.pstr "amsterdam"))).bind fun p =>
        (guessPair gEx p.2 (defaultArgs (.pstr "amsterdam"))).map fun q => q.1.2) =
      .ok (some "gm_prev")
    ∧ (Except.ok (some "gm") : Except PErr (Option String)) ≠ .ok (some "gm_prev") :=
  ⟨rfl, rfl, by simp⟩

/-- C7 (amended): a second identical call is served from the cache and
returns the same municipality name, but its method tag is the *stored* tag:
for tier hits the first call's tag suffixed with `_prev`, identical only for
the `no_match_found` sentinel. -/
theorem c7_amended (g : GM) (cache : Cache) (a : GArgs) (r : Option String)
    (t : String) (c1 : Cache)
    (hfresh : cacheLookup cache (mkPKey (effArgs g a)) = none)
    (hrun : guessPair g cache a = .ok ((r, some t), c1))
    (hsp : t ≠ "special") :
    guessPair g c1 a =
      .ok ((r, (cacheLookup c1 (mkPKey (effArgs g a))).map (·.2)), c1)
    ∧ ((cacheLookup c1 (mkPKey (effArgs g a))).map (·.2) = some (t ++ "_prev")
       ∨ (cacheLookup c1 (mkPKey (effArgs g a))).map (·.2) = some t) := by
  cases hh : (effArgs g a).location_name.hashable with
  | false =>
    simp [guessPair, hh] at hrun
  | true =>
    cases hcomp : guessCompute g (effArgs g a) with
    | error e =>
      simp [guessPair, hh, hfresh, hcomp] at hrun
    | ok oc =>
      cases oc with
      | nonString =>
        simp [guessPair, hh, hfresh, hcomp] at hrun
      | special s =>
        simp [guessPair, hh, hfresh, hcomp] at hrun
        exact absurd hrun.1.2.symm hsp
      | hit r0 t0 =>
        simp only [guessPair, hh, hfresh, hcomp, Bool.not_true, Bool.false_eq_true,
          if_neg, ite_false, Except.ok.injEq, Prod.mk.injEq, Option.some.injEq] at hrun
        obtain ⟨⟨hr, ht⟩, hc⟩ := hrun
        subst hr
        subst ht
        subst hc
        have hlk := cacheLookup_insert cache (mkPKey (effArgs g a)) (some r0, t0 ++ "_prev")
        constructor
        · simp [guessPair, hh, hlk]
        · left
          rw [hlk]
          rfl
      | noMatch =>
        simp only [guessPair, hh, hfresh, hcomp, Bool.not_true, Bool.false_eq_true,
          if_neg, ite_false, Except.ok.injEq, Prod.mk.injEq, Option.some.injEq] at hrun
        obtain ⟨⟨hr, ht⟩, hc⟩ := hrun
        subst hr
        subst ht
        subst hc
        have hlk := cacheLookup_insert cache (mkPKey (effArgs g a)) (none, "no_match_found")
        constructor
        · simp [guessPair, hh, hlk]
        · right
          rw [hlk]
          rfl

/-- Witness for `c7_amended` at the concrete exact-municipality hit. -/
theorem c7_amended_witness :
    (guessPair gEx cacheAms (defaultArgs (.pstr "amsterdam")) =
      .ok ((some "Amsterdam", (cacheLookup cacheAms pkeyAms).map (·.2)), cacheAms)
    ∧ ((cacheLookup cacheAms pkeyAms).map (·.2) = some ("gm" ++ "_prev")
       ∨ (cacheLookup cacheAms pkeyAms).map (·.2) = some "gm")) :=
  c7_amended gEx [] (defaultArgs (.pstr "amsterdam")) (some "Amsterdam") "gm"
    cacheAms rfl rfl (by simp)

/-! ## C10: non-string inputs -/

/-- C10 (counterexample): the claim says every non-coercible
`location_name` — "for example None or a list" — yields an absent result
without raising.  A list is unhashable, and `guess` raises `TypeError` at
the `params_key in self.found_results` membership test before the type
dispatch is reached. -/
theorem c10_counterexample :
    guessPair gEx [] (defaultArgs (.plist [1, 2])) = .error .typeError := rfl

/-- C10 (amended): for every *hashable* `location_name` that is neither a
string, an int, nor an integer-valued float (e.g. `None`), `guess` returns
the absent pair `(None, None)` without raising and without writing the
cache; and an integer-valued float is first coerced to the string of its
integer value, making the computation identical to that on the string. -/
theorem c10_amended (g : GM) (cache : Cache) (a : GArgs) (q : ℚ)
    (hhash : a.location_name.hashable = true)
    (hcoerce : coerceName a.location_name = none)
    (hfresh : cacheLookup cache (mkPKey (effArgs g a)) = none)
    (hq : q.den = 1) :
    guessPair g cache a = .ok ((none, none), cache)
    ∧ guessCompute g { a with location_name := .pfloat q } =
      guessCompute g { a with location_name := .pstr (toString q.num) } := by
  constructor
  · have hh : (effArgs g a).location_name.hashable = true := hhash
    have hc : coerceName (effArgs g a).location_name = none := hcoerce
    have hcomp : guessCompute g (effArgs g a) = .ok GOutcome.nonString := by
      simp [guessCompute, hc]
    simp [guessPair, hh, hfresh, hcomp]
  · simp [guessCompute, coerceName, hq]

/-- Witness for `c10_amended` at `None` and the float `363.0`. -/
theorem c10_amended_witness :
    (guessPair gEx [] (defaultArgs .pnone) = .ok ((none, none), [])
    ∧ guessCompute gEx { defaultArgs .pnone with location_name := .pfloat 363 } =
      guessCompute gEx { defaultArgs .pnone with
        location_name := .pstr (toString (363 : ℚ).num) }) :=
  c10_amended gEx [] (defaultArgs .pnone) 363 rfl rfl rfl (by norm_num)

/-! ## C3: tier priority and fuzzy-flag irrelevance -/

theorem loop1_isSome_of (g : GM) (key : String) (subs : List String) (s : String)
    (hs : s ∈ subs) (hhit : (lookupA (scopeOf g.gm key) s).isSome = true) :
    (loop1 g key subs).isSome = true := by
  induction subs with
  | nil => cases hs
  | cons a t ih =>
    rw [loop1]
    cases hb : (a == "Bergen (NH.)" || a == "Bergen (L.)") with
    | true => simp [hb]
    | false =>
      simp only [hb, Bool.false_eq_true, if_false]
      cases hla : lookupA (scopeOf g.gm key) a with
      | some r => simp
      | none =>
        rcases List.mem_cons.mp hs with h | h
        · subst h
          rw [hla] at hhit
          simp at hhit
        · exact ih h

theorem runTiers_of_loop1 (g : GM) (key : String) (province date : Option String)
    (ch cv cwp cwb cgf chf cwpf cwbf : Bool) (thr : Nat) (subs : List String)
    (x : String ⊕ String) (h : loop1 g key subs = some x) :
    runTiers g key province date ch cv cwp cwb cgf chf cwpf cwbf thr subs =
      .ok (match x with
           | Sum.inl b => GOutcome.special b
           | Sum.inr r => GOutcome.hit r "gm") := by
  cases x <;> simp [runTiers, h] <;> rfl

theorem guessPair_fst_congr (g : GM) (cache : Cache) (a a' : GArgs)
    (hl : a'.location_name = a.location_name) (hp : a'.province = a.province)
    (hd : a'.delimiters = a.delimiters) (hcl : a'.clean = a.clean)
    (str s : String) (subs : List String)
    (hc1 : cacheLookup cache (mkPKey (effArgs g a)) = none)
    (hc2 : cacheLookup cache (mkPKey (effArgs g a')) = none)
    (hcoerce : coerceName a.location_name = some str)
    (hsubs : substringsOf g (pyLower str) a.delimiters a.clean = .ok subs)
    (hs : s ∈ subs)
    (hhit : (lookupA (scopeOf g.gm (resolveProvince g a.province).2) s).isSome = true) :
    (guessPair g cache a).map (·.1) = (guessPair g cache a').map (·.1) := by
  obtain ⟨x, hx⟩ := Option.isSome_iff_exists.mp
    (loop1_isSome_of g (resolveProvince g a.province).2 subs s hs hhit)
  have key : ∀ oc : GOutcome,
      (∀ b : GArgs, b.location_name = a.location_name → b.province = a.province →
        b.delimiters = a.delimiters → b.clean = a.clean →
        guessCompute g b = .ok oc) →
      (guessPair g cache a).map (·.1) = (guessPair g cache a').map (·.1) := by
    intro oc hcompute
    have h1 := hcompute (effArgs g a) rfl rfl rfl rfl
    have h2 := hcompute (effArgs g a') hl hp hd hcl
    cases hh : a.location_name.hashable with
    | false =>
      have e1 : (effArgs g a).location_name.hashable = false := hh
      have e2 : (effArgs g a').location_name.hashable = false := by
        show a'.location_name.hashable = false
        rw [hl]
        exact hh
      simp [guessPair, e1, e2]
    | true =>
      have e1 : (effArgs g a).location_name.hashable = true := hh
      have e2 : (effArgs g a').location_name.hashable = true := by
        show a'.location_name.hashable = true
        rw [hl]
        exact hh
      cases oc <;> simp [guessPair, e1, e2, hc1, hc2, h1, h2, Except.map]
  cases x with
  | inl b0 =>
    refine key (GOutcome.special b0) ?_
    intro b hbl hbp hbd hbc
    simp only [guessCompute, hbl, hbp, hbd, hbc, hcoerce, hsubs]
    exact runTiers_of_loop1 g (resolveProvince g a.province).2
      (resolveProvince g a.province).1 b.date b.check_history b.check_variants
      b.check_wp b.check_wb b.check_gm_fuzzy b.check_history_fuzzy
      b.check_wp_fuzzy b.check_wb_fuzzy (b.threshold_fuzzy.getD g.threshold_fuzzy)
      subs (Sum.inl b0) hx
  | inr r0 =>
    refine key (GOutcome.hit r0 "gm") ?_
    intro b hbl hbp hbd hbc
    simp only [guessCompute, hbl, hbp, hbd, hbc, hcoerce, hsubs]
    exact runTiers_of_loop1 g (resolveProvince g a.province).2
      (resolveProvince g a.province).1 b.date b.check_history b.check_variants
      b.check_wp b.check_wb b.check_gm_fuzzy b.check_history_fuzzy
      b.check_wp_fuzzy b.check_wb_fuzzy (b.threshold_fuzzy.getD g.threshold_fuzzy)
      subs (Sum.inr r0) hx

/-- C3: when an exact Municipality match exists among the cleaned substrings
in the resolved scope, the tier cascade (probed in the fixed source order:
exact municipality, exact history, exact place, exact neighbourhood, then
the four fuzzy tiers) answers at the first tier, so enabling or disabling
any fuzzy tier — including the master `check_fuzzy` switch — never changes
the returned value or method tag.  (The cache must not already hold either
effective key: the claim is about the computation, not about stale
entries.) -/
theorem c3_tier_priority (g : GM) (cache : Cache) (a : GArgs) (m f1 f2 f3 f4 : Bool)
    (str s : String) (subs : List String)
    (hc1 : cacheLookup cache (mkPKey (effArgs g a)) = none)
    (hc2 : cacheLookup cache (mkPKey (effArgs g
      { a with check_fuzzy := m, check_gm_fuzzy := f1, check_history_fuzzy := f2,
               check_wp_fuzzy := f3, check_wb_fuzzy := f4 })) = none)
    (hcoerce : coerceName a.location_name = some str)
    (hsubs : substringsOf g (pyLower str) a.delimiters a.clean = .ok subs)
    (hs : s ∈ subs)
    (hhit : (lookupA (scopeOf g.gm (resolveProvince g a.province).2) s).isSome = true) :
    (guessPair g cache a).map (·.1) =
    (guessPair g cache
      { a with check_fuzzy := m, check_gm_fuzzy := f1, check_history_fuzzy := f2,
               check_wp_fuzzy := f3, check_wb_fuzzy := f4 }).map (·.1) :=
  guessPair_fst_congr g cache a _ rfl rfl rfl rfl str s subs hc1 hc2 hcoerce hsubs hs hhit

/-- Witness for `c3_tier_priority`: on `gEx`, `guess('amsterdam')` with all
fuzzy tiers enabled and with all fuzzy tiers disabled return the same pair. -/
theorem c3_tier_priority_witness :
    (guessPair gEx [] (defaultArgs (.pstr "amsterdam"))).map (·.1) =
    (guessPair gEx []
      { defaultArgs (.pstr "amsterdam") with
        check_fuzzy := false
        check_gm_fuzzy := false
        check_history_fuzzy := false
        check_wp_fuzzy := false
        check_wb_fuzzy := false }).map (·.1) :=
  c3_tier_priority gEx [] (defaultArgs (.pstr "amsterdam")) false false false false
    false "amsterdam" "amsterdam" ["amsterdam"] rfl rfl rfl rfl (by simp) rfl

/-! ## C1: the merger-ratio boundary -/

/-- C1 (counterexample): the claim says a merger whose largest-destination
ratio is *exactly equal* to the configured threshold is accepted as the
successor.  On the explanation `ex80` (destinations with populations 80 and
20, threshold 80), the computed ratio `8000/100` equals 80 exactly, yet the
comparison at line 337 is strict (`ratio > self.threshold_ratio`), so the
destination is rejected: the record has no resolvable successor. -/
theorem c1_counterexample :
    parse_explanation "2022" ⟨80, 1⟩ ex80 =
      .ok { start := none, stop := some "20000101", destination := none,
            ratio := some ⟨8000, 100⟩ }
    ∧ pyQEq ⟨8000, 100⟩ ⟨80, 1⟩ = true := ⟨rfl, rfl⟩

/-- C1 (amended): in the official-register chain a merger is accepted only
when its largest-destination ratio *strictly exceeds* the threshold; a ratio
exactly equal to (or below) the threshold is rejected and the record has no
resolvable successor.  The same strict comparison is applied to the
cumulative ratio at every hop of `follow`. -/
theorem c1_ratio_gate_strict (thr : PyQ) (pops : List (String × Nat)) (my : String)
    (st : Option String × Option String × Option PyQ) (row : CbsRaw) (pr : ParseRes)
    (nw : String) (nr r0 : PyQ)
    (hp : parse_explanation my thr row.toelichting = .ok pr)
    (hd : pr.destination = some nw) (hr : pr.ratio = some nr) (hst : st.2.2 = some r0) :
    ((selectMulti thr pops).1.isSome = pyQGt (ratioOf pops) thr)
    ∧ (pyQEq (ratioOf pops) thr = true → (selectMulti thr pops).1 = none)
    ∧ ((selectMulti thr pops).2 = some (ratioOf pops))
    ∧ followRow thr my st row =
        .ok (if pyQGt (pyQMul r0 (pyQDiv nr ⟨100, 1⟩)) thr
             then (some nw, some nw, some (pyQMul r0 (pyQDiv nr ⟨100, 1⟩)))
             else (none, none, some (pyQMul r0 (pyQDiv nr ⟨100, 1⟩)))) := by
  refine ⟨?_, ?_, rfl, ?_⟩
  · rw [selectMulti]
    cases h : pyQGt (ratioOf pops) thr with
    | true =>
      simp only [ratioOf] at h
      simp [h]
    | false =>
      simp only [ratioOf] at h
      simp [h]
  · intro he
    rw [selectMulti]
    have hgt : pyQGt (ratioOf pops) thr = false := by
      simp only [pyQEq, beq_iff_eq] at he
      simp [pyQGt, ratioOf] at he ⊢
      omega
    simp only [ratioOf] at hgt
    simp [hgt]
  · obtain ⟨s1, s2, s3⟩ := st
    obtain ⟨ps, pe, pd, pra⟩ := pr
    have hd' : pd = some nw := hd
    have hr' : pra = some nr := hr
    have hst' : s3 = some r0 := hst
    subst hd'
    subst hr'
    subst hst'
    rw [followRow, hp, excBind_ok]
    simp only []
    split <;> rfl

/-- Witness for `c1_ratio_gate_strict`: threshold 80, populations 81/19
(ratio 8100/100 > 80, accepted), and the one-hop follow step of `row1`. -/
theorem c1_ratio_gate_strict_witness :
    ((selectMulti ⟨80, 1⟩ [("GM0001", 81), ("GM0002", 19)]).1.isSome =
      pyQGt (ratioOf [("GM0001", 81), ("GM0002", 19)]) ⟨80, 1⟩)
    ∧ (pyQEq (ratioOf [("GM0001", 81), ("GM0002", 19)]) ⟨80, 1⟩ = true →
        (selectMulti ⟨80, 1⟩ [("GM0001", 81), ("GM0002", 19)]).1 = none)
    ∧ ((selectMulti ⟨80, 1⟩ [("GM0001", 81), ("GM0002", 19)]).2 =
        some (ratioOf [("GM0001", 81), ("GM0002", 19)]))
    ∧ followRow ⟨80, 1⟩ "2022" (some "GM0001", some "GM0001", some ⟨100, 1⟩) row1 =
        .ok (if pyQGt (pyQMul ⟨100, 1⟩ (pyQDiv ⟨100, 1⟩ ⟨100, 1⟩)) ⟨80, 1⟩
             then (some "GM0002", some "GM0002",
                   some (pyQMul ⟨100, 1⟩ (pyQDiv ⟨100, 1⟩ ⟨100, 1⟩)))
             else (none, none, some (pyQMul ⟨100, 1⟩ (pyQDiv ⟨100, 1⟩ ⟨100, 1⟩)))) :=
  c1_ratio_gate_strict ⟨80, 1⟩ [("GM0001", 81), ("GM0002", 19)] "2022"
    (some "GM0001", some "GM0001", some ⟨100, 1⟩) row1
    { start := none, stop := some "20000101", destination := some "GM0002",
      ratio := some ⟨100, 1⟩ }
    "GM0002" ⟨100, 1⟩ ⟨100, 1⟩ rfl rfl rfl rfl

/-! ## C2: encyclopedia-then-register order in `lookup_history` -/

/-- C2 (counterexample): the claim says the register chain is consulted only
when the encyclopedia chain yields no answer, and that a unique encyclopedia
result is the returned value.  On `g2`, the encyclopedia chain yields exactly
one result (`B`), yet `lookup_history` returns `C`: the register chain is
*always* consulted, re-queried with the encyclopedia result, and its unique
answer overwrites the encyclopedia's. -/
theorem c2_counterexample :
    (wikiSubset g2 "a" none none false false 85).map (·.target) = [some "B"]
    ∧ lookup_history g2 "a" none none false false 85 = .ok (some "C")
    ∧ (some "C" : Option String) ≠ some "B" := ⟨rfl, rfl, by simp⟩

/-- C2 (amended): the encyclopedia chain is consulted first; when it yields
exactly one de-duplicated row with a non-NaN `latest_gm_name`, that name
(lower-cased) and the row's `until` date are used to re-query the register
chain, which is always consulted; if the register query yields exactly one
de-duplicated row, *its* `current_gm_name` is returned, otherwise the
encyclopedia result is returned. -/
theorem c2_register_override (g : GM) (name : String) (province date : Option String)
    (fuzzy cv : Bool) (thr : Nat) (r : HRec) (w : String)
    (hw : wikiSubset g name province date fuzzy cv thr = [r])
    (ht : r.target = some w) :
    lookup_history g name province date fuzzy cv thr =
      (match cbsSubset g (pyLower w) province r.until' fuzzy thr with
       | [r2] => .ok r2.target
       | _ => .ok (some w)) := by
  rw [lookup_history, hw]
  simp only [ht]

/-- Witness for `c2_register_override` on the concrete tables of `g2`. -/
theorem c2_register_override_witness :
    lookup_history g2 "a" none none false false 85 =
      (match cbsSubset g2 (pyLower "B") none rWiki.until' false 85 with
       | [r2] => .ok r2.target
       | _ => .ok (some "B")) :=
  c2_register_override g2 "a" none none false false 85 rWiki "B" rfl rfl

/-! ## C8: termination of the historical chains -/

theorem excBind_err (e : ε) (f : α → Except ε β) :
    (Except.error e >>= f : Except ε β) = .error e := rfl

theorem foldlM_append_except (f : β → α → Except ε β) (l₁ l₂ : List α) (init : β) :
    (l₁ ++ l₂).foldlM f init = (l₁.foldlM f init) >>= l₂.foldlM f := by
  induction l₁ generalizing init with
  | nil => simp [List.foldlM]
  | cons a t ih =>
    simp only [List.cons_append, List.foldlM]
    cases h : f init a with
    | error e => simp [excBind_err]
    | ok b => simp [excBind_ok, ih b]

/-- A `followRow` step whose output has a truthy `nw_code` moved to the
parsed destination of its row. -/
theorem followRow_dest (thr : PyQ) (my : String)
    (st : Option String × Option String × Option PyQ) (row : CbsRaw)
    (st' : Option String × Option String × Option PyQ)
    (h : followRow thr my st row = .ok st') (ht : truthyO st'.2.1 = true) :
    ∃ nw pr, parse_explanation my thr row.toelichting = .ok pr ∧
      pr.destination = some nw ∧ st'.1 = some nw ∧ st'.2.1 = some nw := by
  rw [followRow] at h
  cases hp : parse_explanation my thr row.toelichting with
  | error e =>
    simp only [hp, excBind_err] at h
    cases h
  | ok pr =>
    simp only [hp, excBind_ok] at h
    cases hd : pr.destination with
    | none =>
      simp only [hd] at h
      have hst : st' = (st.1, none, st.2.2) := (Except.ok.inj h).symm
      rw [hst] at ht
      simp [truthyO] at ht
    | some nw =>
      simp only [hd] at h
      cases hs2 : st.2.2 with
      | none =>
        simp only [hs2] at h
        cases h
      | some r0 =>
        simp only [hs2] at h
        cases hra : pr.ratio with
        | none =>
          simp only [hra] at h
          cases h
        | some nr =>
          simp only [hra] at h
          cases hq : pyQGt (pyQMul r0 (pyQDiv nr ⟨100, 1⟩)) thr with
          | true =>
            simp only [hq, if_true] at h
            have hst : st' = (some nw, some nw, some (pyQMul r0 (pyQDiv nr ⟨100, 1⟩))) :=
              (Except.ok.inj h).symm
            exact ⟨nw, pr, rfl, hd, by rw [hst], by rw [hst]⟩
          | false =>
            simp only [hq, Bool.false_eq_true, if_false] at h
            have hst : st' = (none, none, some (pyQMul r0 (pyQDiv nr ⟨100, 1⟩))) :=
              (Except.ok.inj h).symm
            rw [hst] at ht
            simp [truthyO] at ht

/-- A whole row-fold whose output has a truthy `nw_code` ends on a row whose
parsed destination it carries. -/
theorem fold_dest (thr : PyQ) (my : String) (rows : List CbsRaw)
    (hne : rows ≠ [])
    (st st' : Option String × Option String × Option PyQ)
    (h : rows.foldlM (followRow thr my) st = .ok st')
    (ht : truthyO st'.2.1 = true) :
    ∃ r nw pr, r ∈ rows ∧ parse_explanation my thr r.toelichting = .ok pr ∧
      pr.destination = some nw ∧ st'.1 = some nw ∧ st'.2.1 = some nw := by
  obtain ⟨ts, x, rfl⟩ : ∃ ts x, rows = ts ++ [x] := by
    rcases List.eq_nil_or_concat rows with h0 | ⟨ts, x, h0⟩
    · exact absurd h0 hne
    · exact ⟨ts, x, by rw [h0, List.concat_eq_append]⟩
  rw [foldlM_append_except] at h
  cases hmid : ts.foldlM (followRow thr my) st with
  | error e =>
    simp only [hmid, excBind_err] at h
    cases h
  | ok stm =>
    simp only [hmid, excBind_ok, List.foldlM] at h
    cases hxr : followRow thr my stm x with
    | error e =>
      simp only [hxr, excBind_err] at h
      cases h
    | ok stf =>
      simp only [hxr, excBind_ok] at h
      have hst : stf = st' := by
        simpa [pure, Except.pure] using h
      rw [hst] at hxr
      obtain ⟨nw, pr, hp, hd, h1, h2⟩ := followRow_dest thr my stm x st' hxr ht
      exact ⟨x, nw, pr, by simp, hp, hd, h1, h2⟩

/-- The `while` loop of `follow` returns immediately — at any fuel — when
`nw_code` is falsy. -/
theorem followLoop_stop (thr : PyQ) (my : String) (tbl : List CbsRaw) (fuel : Nat)
    (st : Option String × Option String × Option PyQ)
    (h : truthyO st.2.1 = false) :
    followLoop thr my tbl fuel st = .ok (some (st.1, st.2.2)) := by
  cases fuel <;> simp [followLoop, h]

/-- The `while` loop of `follow` returns immediately — at any fuel — when no
row matches the current code. -/
theorem followLoop_norows (thr : PyQ) (my : String) (tbl : List CbsRaw) (fuel : Nat)
    (st : Option String × Option String × Option PyQ)
    (h2 : (followRows tbl st.1).isEmpty = true) :
    followLoop thr my tbl fuel st = .ok (some (st.1, st.2.2)) := by
  cases fuel <;> cases h1 : truthyO st.2.1 <;> simp [followLoop, h1, h2]

/-- One unfolding of the `follow` loop on a live state. -/
theorem followLoop_step (thr : PyQ) (my : String) (tbl : List CbsRaw) (f : Nat)
    (st : Option String × Option String × Option PyQ)
    (h1 : truthyO st.2.1 = true) (h2 : (followRows tbl st.1).isEmpty = false) :
    followLoop thr my tbl (f + 1) st =
      match (followRows tbl st.1).foldlM (followRow thr my) st with
      | .error e => .error e
      | .ok st' => followLoop thr my tbl f st' := by
  rw [followLoop]
  simp [h1, h2]

/-- Stabilisation of the fuelled `follow` loop: on a register table whose
successor relation is ranked, the result is independent of the fuel beyond
the rank bound and is never the fuel-exhaustion marker. -/
theorem followLoop_stable (thr : PyQ) (my : String) (tbl : List CbsRaw)
    (rank : String → Nat) (hWF : followWF rank thr my tbl = true) :
    ∀ (k : Nat) (st : Option String × Option String × Option PyQ),
      (truthyO st.2.1 = true → ∃ c, st.1 = some c ∧ st.2.1 = some c ∧ rank c < k) →
      ∀ f₁ f₂, k ≤ f₁ → k ≤ f₂ →
        followLoop thr my tbl f₁ st = followLoop thr my tbl f₂ st ∧
        followLoop thr my tbl f₁ st ≠ .ok none := by
  intro k
  induction k with
  | zero =>
    intro st hP f₁ f₂ _ _
    cases htr : truthyO st.2.1 with
    | false =>
      rw [followLoop_stop thr my tbl f₁ st htr, followLoop_stop thr my tbl f₂ st htr]
      exact ⟨rfl, by simp⟩
    | true =>
      obtain ⟨c, _, _, hc⟩ := hP htr
      omega
  | succ k ih =>
    intro st hP f₁ f₂ hf₁ hf₂
    cases htr : truthyO st.2.1 with
    | false =>
      rw [followLoop_stop thr my tbl f₁ st htr, followLoop_stop thr my tbl f₂ st htr]
      exact ⟨rfl, by simp⟩
    | true =>
      obtain ⟨c, hgm, hnw, hrank⟩ := hP htr
      cases hrw : (followRows tbl st.1).isEmpty with
      | true =>
        rw [followLoop_norows thr my tbl f₁ st hrw, followLoop_norows thr my tbl f₂ st hrw]
        exact ⟨rfl, by simp⟩
      | false =>
        obtain ⟨f₁', rfl⟩ : ∃ m, f₁ = m + 1 := ⟨f₁ - 1, by omega⟩
        obtain ⟨f₂', rfl⟩ : ∃ m, f₂ = m + 1 := ⟨f₂ - 1, by omega⟩
        rw [followLoop_step thr my tbl f₁' st htr hrw,
          followLoop_step thr my tbl f₂' st htr hrw]
        cases hfold : (followRows tbl st.1).foldlM (followRow thr my) st with
        | error e => exact ⟨rfl, by simp⟩
        | ok st' =>
          have hP' : truthyO st'.2.1 = true →
              ∃ c', st'.1 = some c' ∧ st'.2.1 = some c' ∧ rank c' < k := by
            intro htr'
            have hrowsne : followRows tbl st.1 ≠ [] := by
              intro h0
              rw [h0] at hrw
              simp at hrw
            obtain ⟨r, nw, pr, hrmem, hpr, hdest, hgm', hnw'⟩ :=
              fold_dest thr my (followRows tbl st.1) hrowsne st st' hfold htr'
            refine ⟨nw, hgm', hnw', ?_⟩
            have hrmem' := hrmem
            rw [hgm] at hrmem'
            simp only [followRows, List.mem_filter, beq_iff_eq] at hrmem'
            obtain ⟨hrtbl, hcode⟩ := hrmem'
            simp only [followWF, List.all_eq_true] at hWF
            have h5 := hWF r hrtbl
            simp only [hpr, hdest, decide_eq_true_eq] at h5
            rw [hcode] at h5
            omega
          exact ih st' hP' f₁' f₂' (by omega) (by omega)

/-- One of the break paths of the wiki loop: a non-singleton mask returns
the (stripped) current name at any fuel. -/
theorem followWikiLoop_break (tbl : List HRec) (fuel : Nat) (gname : String)
    (since : Option String) :
    followWikiLoop tbl fuel gname since =
      (match wikiMask tbl (cleanNameStr (stripNaams gname)) since with
       | [r] =>
         if cleanNameStr (r.opgegaan.getD "") == cleanNameStr (stripNaams gname) then
           some (stripNaams gname)
         else if !truthyS r.until' then some (r.opgegaan.getD "")
         else (match fuel with
               | 0 => none
               | f + 1 => followWikiLoop tbl f (r.opgegaan.getD "") r.until')
       | _ => some (stripNaams gname)) := by
  cases fuel <;> rfl

/-- Stabilisation of the fuelled `follow_wiki` loop under a ranked
successor relation. -/
theorem followWikiLoop_stable (tbl : List HRec) (rank : String → Nat)
    (hWF : followWikiWF rank tbl = true) :
    ∀ (k : Nat) (gname : String) (since : Option String),
      rank (cleanNameStr (stripNaams gname)) < k →
      ∀ f₁ f₂, k ≤ f₁ → k ≤ f₂ →
        followWikiLoop tbl f₁ gname since = followWikiLoop tbl f₂ gname since ∧
        followWikiLoop tbl f₁ gname since ≠ none := by
  intro k
  induction k with
  | zero =>
    intro gname since h
    omega
  | succ k ih =>
    intro gname since hrank f₁ f₂ hf₁ hf₂
    rw [followWikiLoop_break tbl f₁ gname since, followWikiLoop_break tbl f₂ gname since]
    cases hmask : wikiMask tbl (cleanNameStr (stripNaams gname)) since with
    | nil => exact ⟨rfl, by simp⟩
    | cons r rest =>
      cases rest with
      | cons r2 rest2 => exact ⟨rfl, by simp⟩
      | nil =>
        cases hself : cleanNameStr (r.opgegaan.getD "") ==
            cleanNameStr (stripNaams gname) with
        | true => simp [hself]
        | false =>
          cases hu : !truthyS r.until' with
          | true => simp [hself, hu]
          | false =>
            simp only [hself, hu, Bool.false_eq_true, if_false]
            obtain ⟨f₁', rfl⟩ : ∃ m, f₁ = m + 1 := ⟨f₁ - 1, by omega⟩
            obtain ⟨f₂', rfl⟩ : ∃ m, f₂ = m + 1 := ⟨f₂ - 1, by omega⟩
            have hrm : r ∈ wikiMask tbl (cleanNameStr (stripNaams gname)) since := by
              rw [hmask]
              simp
            simp only [wikiMask, List.mem_filter] at hrm
            obtain ⟨hrtbl, hpred⟩ := hrm
            have hname : r.name_cleaned = cleanNameStr (stripNaams gname) := by
              have := hpred
              simp only [Bool.and_eq_true, beq_iff_eq] at this
              exact this.1.1
            have hop : r.opgegaan.isSome = true := by
              have := hpred
              simp only [Bool.and_eq_true] at this
              exact this.1.2
            obtain ⟨nw0, hnw0⟩ := Option.isSome_iff_exists.mp hop
            simp only [followWikiWF, List.all_eq_true] at hWF
            have h5 := hWF r hrtbl
            simp only [hnw0, decide_eq_true_eq] at h5
            rw [hname] at h5
            have hrk : rank (cleanNameStr (stripNaams (r.opgegaan.getD ""))) < k := by
              rw [hnw0]
              simp only [Option.getD_some]
              omega
            exact ih (r.opgegaan.getD "") r.until' hrk f₁' f₂' (by omega) (by omega)

/-- C8: given a well-formed historical dataset — one whose successor
relation admits a rank function, i.e. no revisits of an already-dissolved
code/name — both chain-following loops terminate: the fuelled `follow` and
`follow_wiki` loops give the same outcome at every fuel beyond the rank of
the start, and that outcome is never the fuel-exhaustion marker, so every
chain resolves (to a code/name, an absent result, or a parse error) within
a bounded number of hops. -/
theorem c8_chains_terminate (thr : PyQ) (my : String) (tbl : List CbsRaw)
    (wtbl : List HRec) (rankC rankW : String → Nat)
    (hC : followWF rankC thr my tbl = true)
    (hW : followWikiWF rankW wtbl = true) :
    (∀ (c : String) (ratio : Option PyQ) (f₁ f₂ : Nat),
      rankC c < f₁ → rankC c < f₂ →
      follow thr my tbl f₁ (some c) ratio = follow thr my tbl f₂ (some c) ratio ∧
      follow thr my tbl f₁ (some c) ratio ≠ .ok none)
    ∧ (∀ (gname : String) (since : Option String) (f₁ f₂ : Nat),
      rankW (cleanNameStr (stripNaams gname)) < f₁ →
      rankW (cleanNameStr (stripNaams gname)) < f₂ →
      followWikiLoop wtbl f₁ gname since = followWikiLoop wtbl f₂ gname since ∧
      followWikiLoop wtbl f₁ gname since ≠ none) := by
  constructor
  · intro c ratio f₁ f₂ h₁ h₂
    exact followLoop_stable thr my tbl rankC hC (rankC c + 1) (some c, some c, ratio)
      (fun _ => ⟨c, rfl, rfl, by omega⟩) f₁ f₂ (by omega) (by omega)
  · intro gname since f₁ f₂ h₁ h₂
    exact followWikiLoop_stable wtbl rankW hW
      (rankW (cleanNameStr (stripNaams gname)) + 1) gname since (by omega)
      f₁ f₂ (by omega) (by omega)

/-- Witness for `c8_chains_terminate` on the concrete two-row datasets. -/
theorem c8_chains_terminate_witness :
    (follow ⟨80, 1⟩ "2022" [row1, row2] 2 (some "GM0001") (some ⟨100, 1⟩) =
       follow ⟨80, 1⟩ "2022" [row1, row2] 7 (some "GM0001") (some ⟨100, 1⟩)
     ∧ follow ⟨80, 1⟩ "2022" [row1, row2] 2 (some "GM0001") (some ⟨100, 1⟩) ≠ .ok none)
    ∧ (followWikiLoop [rWiki, rWiki2] 2 "A" none = followWikiLoop [rWiki, rWiki2] 7 "A" none
     ∧ followWikiLoop [rWiki, rWiki2] 2 "A" none ≠ none) :=
  ⟨(c8_chains_terminate ⟨80, 1⟩ "2022" [row1, row2] [rWiki, rWiki2] rankEx rankEx
      rfl rfl).1 "GM0001" (some ⟨100, 1⟩) 2 7 (by decide) (by decide),
   (c8_chains_terminate ⟨80, 1⟩ "2022" [row1, row2] [rWiki, rWiki2] rankEx rankEx
      rfl rfl).2 "A" none 2 7 (by decide) (by decide)⟩

end NlMunicipality
